import Mathlib

/-!
Shallow embedding of the tex3ds decompression core of this repository
(src/source/tex3ds/decompress.c, src/source/tex3ds/buffer.c,
src/include/tex3ds/buffer.h, src/include/tex3ds/types.h).

Modelling conventions:
* `size_t` / `unsigned` values are `Nat`; the one place where unsigned
  wraparound matters (the post-decremented `bytes` counter in
  `iov_memmove`) is made explicit via `sizeTMax = 2 ^ 64 - 1`.
* Bytes are `UInt8`.
* The pull-source callback is a list of results: `some d` is a callback
  returning `rc = d.length` having filled `d`; `none` is a negative
  (I/O error) return; an exhausted list is a `0` (EOF) return.
* Out-of-bounds memory accesses (reading `iov[num]` with `num ≥ iovcnt`,
  dereferencing past a region, reading unread tree bytes) are undefined
  behaviour and modelled as `none`; a clean `return false` of the C code
  is `some (false, …)` carrying the state at that point.
-/

namespace Tex3DS

set_option maxRecDepth 16384

/-- One pull-source callback result: `some d` = filled `d.length` bytes,
`none` = negative return (I/O error). -/
abbrev Chunk := Option (List UInt8)

/-- The pull source as the sequence of its future callback results;
an empty list means the callback returns 0 (EOF). -/
abbrev Source := List Chunk

/-- Model of `Tex3DS_Buffer` (src/include/tex3ds/types.h): `data` holds the
bytes currently in the owned storage block, `limit` the capacity, `size`
the number of valid bytes, `pos` the read cursor, `total` the consumed
counter. -/
structure Buf where
  data : List UInt8
  limit : Nat
  size : Nat
  pos : Nat
  total : Nat
deriving Repr, DecidableEq

/-- Model of the output region set (`Tex3DS_IOVec` array): each region is
its byte contents, the region size being the list length. -/
abbrev Regions := List (List UInt8)

/-- Model of `iov_iter` (minus the pointer/count, carried separately as the
`Regions` value): current region number and offset. -/
structure IovIter where
  num : Nat
  pos : Nat
deriving Repr, DecidableEq

/-- Model of `Tex3DS_BufferRead` (src/source/tex3ds/buffer.c:50): serve the
request from the resident bytes if possible, otherwise drain the resident
bytes, reset the buffer and pull a fresh block, looping.  Returns the
delivered bytes with the final buffer and source, `none` on failure
(callback returned `rc <= 0` before the request was satisfied).  Note the
function does not touch `total`, exactly as in the source file. -/
def Tex3DS_BufferRead (b : Buf) (src : Source) (n : Nat) :
    Option (List UInt8 × Buf × Source) :=
  if n = 0 then some ([], b, src)
  else if n ≤ b.size - b.pos then
    some ((b.data.drop b.pos).take n, { b with pos := b.pos + n }, src)
  else
    match src with
    | [] => none
    | none :: _ => none
    | some d :: rest =>
      if d.length = 0 then none
      else
        match Tex3DS_BufferRead
            { data := d, limit := b.limit, size := d.length, pos := 0,
              total := b.total } rest (n - (b.size - b.pos)) with
        | some (bs, b2, s2) =>
          some ((b.data.drop b.pos).take (b.size - b.pos) ++ bs, b2, s2)
        | none => none

/-- Model of `Tex3DS_BufferGet` (src/include/tex3ds/buffer.h:59): fast path
serves a resident byte and increments `total`; otherwise delegates to
`Tex3DS_BufferRead` with `n = 1`. -/
def Tex3DS_BufferGet (b : Buf) (src : Source) :
    Option (UInt8 × Buf × Source) :=
  if b.pos < b.size then
    some (b.data.getD b.pos 0,
      { b with pos := b.pos + 1, total := b.total + 1 }, src)
  else
    match Tex3DS_BufferRead b src 1 with
    | some (bs, b2, s2) => some (bs.headD 0, b2, s2)
    | none => none

/-- Model of `iov_size` (decompress.c:64): total capacity of the region
set. -/
def iov_size (iov : Regions) : Nat :=
  (iov.map List.length).sum

/-- Read the byte at the iterator position; `none` models the out-of-bounds
access that `iov_addr` (decompress.c:82) would make on an invalid
iterator. -/
def iov_get (iov : Regions) (it : IovIter) : Option UInt8 :=
  match iov[it.num]? with
  | some r => r[it.pos]?
  | none => none

/-- Write the byte at the iterator position (a store through `iov_addr`);
`none` on an out-of-bounds position. -/
def iov_set (iov : Regions) (it : IovIter) (v : UInt8) : Option Regions :=
  match iov[it.num]? with
  | some r => if it.pos < r.length then some (iov.set it.num (r.set it.pos v)) else none
  | none => none

/-- Model of `iov_increment` (decompress.c:94): advance one byte, rolling
into the next region when the current one is exhausted. -/
def iov_increment (iov : Regions) (it : IovIter) : Option IovIter :=
  match iov[it.num]? with
  | some r =>
    if it.pos < r.length then
      some (if it.pos + 1 = r.length then ⟨it.num + 1, 0⟩ else ⟨it.num, it.pos + 1⟩)
    else none
  | none => none

/-- Loop of `iov_add` (decompress.c:114) over the region suffix from the
current region on.  The C loop is `while(true)` and dereferences
`iov[num]` at the top of every iteration, so running past the last region
is an out-of-bounds access (`none`).  Returns how many regions were
stepped over and the final offset. -/
def iov_add_go : List (List UInt8) → Nat → Nat → Option (Nat × Nat)
  | [], _, _ => none
  | r :: rest, pos, size =>
    if pos < r.length then
      if r.length - pos > size then some (0, pos + size)
      else
        match iov_add_go rest 0 (size - (r.length - pos)) with
        | some (k, p) => some (k + 1, p)
        | none => none
    else none

/-- Model of `iov_add` (decompress.c:114). -/
def iov_add (iov : Regions) (it : IovIter) (size : Nat) : Option IovIter :=
  match iov_add_go (iov.drop it.num) it.pos size with
  | some (k, p) => some ⟨it.num + k, p⟩
  | none => none

/-- Loop of `iov_sub` (decompress.c:140) over the reversed list of regions
before the current one; `none` models falling off the front (the
`assert(it->num > 0)` failure / out-of-bounds motion). -/
def iov_sub_go : List (List UInt8) → Nat → Nat → Option (Nat × Nat)
  | rs, pos, size =>
    if size ≤ pos then some (0, pos - size)
    else
      match rs with
      | [] => none
      | r :: rest =>
        match iov_sub_go rest r.length (size - pos) with
        | some (k, p) => some (k + 1, p)
        | none => none

/-- Model of `iov_sub` (decompress.c:140). -/
def iov_sub (iov : Regions) (it : IovIter) (size : Nat) : Option IovIter :=
  match iov_sub_go (iov.take it.num).reverse it.pos size with
  | some (k, p) => some ⟨it.num - k, p⟩
  | none => none

/-- `SIZE_MAX`, the value a `size_t` counter holds after being
post-decremented past zero. -/
def sizeTMax : Nat := 2 ^ 64 - 1

/-- The byte-by-byte pointer copy loop inside `iov_memmove`
(decompress.c:206): sequential low-to-high copy through the shared region
memory, so an overlapping destination sees the bytes already copied. -/
def copy_bytes : Nat → Regions → Nat → Nat → Nat → Nat → Option Regions
  | 0, iov, _, _, _, _ => some iov
  | k + 1, iov, onum, opos, inum, ipos =>
    match iov[inum]? with
    | none => none
    | some ri =>
      match ri[ipos]? with
      | none => none
      | some v =>
        match iov[onum]? with
        | none => none
        | some ro =>
          if opos < ro.length then
            copy_bytes k (iov.set onum (ro.set opos v)) onum (opos + 1) inum (ipos + 1)
          else none

/-- Splice `bs` into `r` at offset `p` (the effect of a `memcpy`/`memset`
into a region at that offset). -/
def writeRange (r : List UInt8) (p : Nat) (bs : List UInt8) : List UInt8 :=
  r.take p ++ bs ++ r.drop (p + bs.length)

/-- Loop of `iov_memmove` (decompress.c:182), fuelled.  Each iteration
copies one chunk byte-by-byte and then calls `iov_add` on both iterators
with the loop counter `bytes` — which the copy loop `while(bytes-- > 0)`
has already run down past zero, so the advance amount is the wrapped
value `sizeTMax`. -/
def iov_memmove_go : Nat → Regions → IovIter → IovIter → Nat →
    Option (Regions × IovIter × IovIter)
  | 0, iov, out, inp, size => if size = 0 then some (iov, out, inp) else none
  | fuel + 1, iov, out, inp, size =>
    if size = 0 then some (iov, out, inp) else
    match iov[out.num]?, iov[inp.num]? with
    | some ro, some ri =>
      if out.pos < ro.length then
        if inp.pos < ri.length then
          let bytes := min (min (ro.length - out.pos) (ri.length - inp.pos)) size
          match copy_bytes bytes iov out.num out.pos inp.num inp.pos with
          | none => none
          | some iov2 =>
            match iov_add iov2 out sizeTMax, iov_add iov2 inp sizeTMax with
            | some out2, some in2 => iov_memmove_go fuel iov2 out2 in2 (size - bytes)
            | _, _ => none
        else none
      else none
    | _, _ => none

/-- Model of `iov_memmove` (decompress.c:182).  The fuel `size` bounds the
iteration count, since every executed iteration removes at least one byte
from `size`. -/
def iov_memmove (iov : Regions) (out inp : IovIter) (size : Nat) :
    Option (Regions × IovIter × IovIter) :=
  iov_memmove_go size iov out inp size

/-- Loop of `iov_memset` (decompress.c:215), fuelled. -/
def iov_memset_go : Nat → Regions → IovIter → UInt8 → Nat →
    Option (Regions × IovIter)
  | 0, iov, out, _, size => if size = 0 then some (iov, out) else none
  | fuel + 1, iov, out, v, size =>
    if size = 0 then some (iov, out) else
    match iov[out.num]? with
    | none => none
    | some r =>
      if out.pos < r.length then
        let bytes := min (r.length - out.pos) size
        let iov2 := iov.set out.num (writeRange r out.pos (List.replicate bytes v))
        match iov_add iov2 out bytes with
        | some out2 => iov_memset_go fuel iov2 out2 v (size - bytes)
        | none => none
      else none

/-- Model of `iov_memset` (decompress.c:215). -/
def iov_memset (iov : Regions) (out : IovIter) (v : UInt8) (size : Nat) :
    Option (Regions × IovIter) :=
  iov_memset_go size iov out v size

/-- Loop of `iov_read` (decompress.c:159), fuelled: chunked copy from the
streaming buffer into the region set.  A clean read failure is
`some (false, …)`; an out-of-bounds iterator is `none`. -/
def iov_read_go : Nat → Buf → Source → Regions → IovIter → Nat →
    Option (Bool × Regions × IovIter × Buf × Source)
  | 0, b, src, iov, out, size =>
    if size = 0 then some (true, iov, out, b, src) else none
  | fuel + 1, b, src, iov, out, size =>
    if size = 0 then some (true, iov, out, b, src) else
    match iov[out.num]? with
    | none => none
    | some r =>
      if out.pos < r.length then
        let bytes := min (r.length - out.pos) size
        match Tex3DS_BufferRead b src bytes with
        | none => some (false, iov, out, b, src)
        | some (bs, b2, s2) =>
          let iov2 := iov.set out.num (writeRange r out.pos bs)
          match iov_add iov2 out bytes with
          | some out2 => iov_read_go fuel b2 s2 iov2 out2 (size - bytes)
          | none => none
      else none

/-- Model of `iov_read` (decompress.c:159). -/
def iov_read (b : Buf) (src : Source) (iov : Regions) (out : IovIter)
    (size : Nat) : Option (Bool × Regions × IovIter × Buf × Source) :=
  iov_read_go size b src iov out size

/-- Loop of `lzss_decode` (decompress.c:252), fuelled.  `flags`/`mask`
carry the current flag byte and the bit being tested.  Note that the
compressed-block branch hands the remaining budget `size` (already
decremented by `len`) to `iov_memmove`, exactly as decompress.c:285
does. -/
def lzss_go : Nat → Buf → Source → Regions → IovIter → Nat → Nat → Nat →
    Option (Bool × Regions × IovIter × Buf × Source)
  | 0, b, src, iov, out, _, _, size =>
    if size = 0 then some (true, iov, out, b, src) else none
  | fuel + 1, b, src, iov, out, flags, mask, size =>
    if size = 0 then some (true, iov, out, b, src) else
    match (if mask = 0 then
        (Tex3DS_BufferGet b src).map (fun r => (r.1.toNat, 0x80, r.2.1, r.2.2))
      else some (flags, mask, b, src)) with
    | none => some (false, iov, out, b, src)
    | some (flags1, mask1, b1, s1) =>
      if flags1 &&& mask1 ≠ 0 then
        match Tex3DS_BufferGet b1 s1 with
        | none => some (false, iov, out, b1, s1)
        | some (d0, b2, s2) =>
          match Tex3DS_BufferGet b2 s2 with
          | none => some (false, iov, out, b2, s2)
          | some (d1, b3, s3) =>
            let len := min (((d0.toNat &&& 0xF0) >>> 4) + 3) size
            let disp := ((d0.toNat &&& 0x0F) <<< 8) ||| d1.toNat
            let size2 := size - len
            match iov_sub iov out (disp + 1) with
            | none => none
            | some inp =>
              match iov_memmove iov out inp size2 with
              | none => none
              | some (iov2, out2, _) =>
                lzss_go fuel b3 s3 iov2 out2 flags1 (mask1 >>> 1) size2
      else
        match iov_get iov out with
        | none => none
        | some _ =>
          match Tex3DS_BufferGet b1 s1 with
          | none => some (false, iov, out, b1, s1)
          | some (v, b2, s2) =>
            match iov_set iov out v with
            | none => none
            | some iov2 =>
              match iov_increment iov2 out with
              | none => none
              | some out2 =>
                lzss_go fuel b2 s2 iov2 out2 flags1 (mask1 >>> 1) (size - 1)

/-- Model of `lzss_decode` (decompress.c:242): flags and mask start at 0,
so the first iteration reads a flag byte.  Every executed iteration
shrinks `size`, so `size` serves as fuel. -/
def lzss_decode (b : Buf) (src : Source) (iov : Regions) (size : Nat) :
    Option (Bool × Regions × IovIter × Buf × Source) :=
  lzss_go size b src iov ⟨0, 0⟩ 0 0 size

/-- Model of the variable-width block-header parse in `lz11_decode`
(decompress.c:333-373): reads the first length/displacement byte,
switches on its top nibble, reads the further header bytes and assembles
the (unclamped) length and the displacement.  `none` is a read
failure. -/
def lz11_block_header (b : Buf) (src : Source) :
    Option (Nat × Nat × Buf × Source) :=
  match Tex3DS_BufferGet b src with
  | none => none
  | some (d0, b1, s1) =>
    if d0.toNat >>> 4 = 0 then
      match Tex3DS_BufferGet b1 s1 with
      | none => none
      | some (d1, b2, s2) =>
        match Tex3DS_BufferGet b2 s2 with
        | none => none
        | some (d2, b3, s3) =>
          some (((d0.toNat <<< 4) ||| (d1.toNat >>> 4)) + 0x11,
            ((d1.toNat &&& 0x0F) <<< 8) ||| d2.toNat, b3, s3)
    else if d0.toNat >>> 4 = 1 then
      match Tex3DS_BufferGet b1 s1 with
      | none => none
      | some (d1, b2, s2) =>
        match Tex3DS_BufferGet b2 s2 with
        | none => none
        | some (d2, b3, s3) =>
          match Tex3DS_BufferGet b3 s3 with
          | none => none
          | some (d3, b4, s4) =>
            some ((((d0.toNat &&& 0x0F) <<< 12) ||| (d1.toNat <<< 4) |||
                (d2.toNat >>> 4)) + 0x111,
              ((d2.toNat &&& 0x0F) <<< 8) ||| d3.toNat, b4, s4)
    else
      match Tex3DS_BufferGet b1 s1 with
      | none => none
      | some (d1, b2, s2) =>
        some ((d0.toNat >>> 4) + 1,
          ((d0.toNat &&& 0x0F) <<< 8) ||| d1.toNat, b2, s2)

/-- Loop of `lz11_decode` (decompress.c:320), fuelled.  `i` counts the
blocks left in the current flag byte (the C code counts `i` up to 8);
`i = 0` forces a flag-byte read.  The compressed-block branch hands the
decremented budget to `iov_memmove` exactly as decompress.c:382 does. -/
def lz11_go : Nat → Buf → Source → Regions → IovIter → Nat → Nat → Nat →
    Option (Bool × Regions × IovIter × Buf × Source)
  | 0, b, src, iov, out, size, _, _ =>
    if size = 0 then some (true, iov, out, b, src) else none
  | fuel + 1, b, src, iov, out, size, i, flags =>
    if size = 0 then some (true, iov, out, b, src) else
    if i = 0 then
      match Tex3DS_BufferGet b src with
      | none => some (false, iov, out, b, src)
      | some (f, b1, s1) => lz11_go fuel b1 s1 iov out size 8 f.toNat
    else
      if flags &&& 0x80 ≠ 0 then
        match lz11_block_header b src with
        | none => some (false, iov, out, b, src)
        | some (len0, disp, b1, s1) =>
          let len := min len0 size
          let size2 := size - len
          match iov_sub iov out (disp + 1) with
          | none => none
          | some inp =>
            match iov_memmove iov out inp size2 with
            | none => none
            | some (iov2, out2, _) =>
              lz11_go fuel b1 s1 iov2 out2 size2 (i - 1) ((flags <<< 1) &&& 0xFF)
      else
        match iov_get iov out with
        | none => none
        | some _ =>
          match Tex3DS_BufferGet b src with
          | none => some (false, iov, out, b, src)
          | some (v, b1, s1) =>
            match iov_set iov out v with
            | none => none
            | some iov2 =>
              match iov_increment iov2 out with
              | none => none
              | some out2 =>
                lz11_go fuel b1 s1 iov2 out2 (size - 1) (i - 1)
                  ((flags <<< 1) &&& 0xFF)

/-- Model of `lz11_decode` (decompress.c:312).  At most one flag-read
iteration precedes each run of block iterations, so `2 * size + 1`
iterations always suffice. -/
def lz11_decode (b : Buf) (src : Source) (iov : Regions) (size : Nat) :
    Option (Bool × Regions × IovIter × Buf × Source) :=
  lz11_go (2 * size + 1) b src iov ⟨0, 0⟩ size 0 0

/-- Loop of `huff_decode` (decompress.c:442), fuelled.  `tree` is the part
of the tree table actually read from the stream (reading beyond it would
be uninitialized memory, modelled `none`), `node` the current tree index,
`word`/`mask` the 32-bit input window and the bit being tested. -/
def huff_go : Nat → Buf → Source → List UInt8 → Regions → IovIter → Nat →
    Nat → Nat → Nat → Option (Bool × Regions × IovIter × Buf × Source)
  | 0, b, src, _, iov, out, size, _, _, _ =>
    if size = 0 then some (true, iov, out, b, src) else none
  | fuel + 1, b, src, tree, iov, out, size, node, word, mask =>
    if size = 0 then some (true, iov, out, b, src) else
    match (if mask = 0 then
        match Tex3DS_BufferGet b src with
        | none => none
        | some (w0, ba, sa) =>
          match Tex3DS_BufferGet ba sa with
          | none => none
          | some (w1, bb, sb) =>
            match Tex3DS_BufferGet bb sb with
            | none => none
            | some (w2, bc, sc) =>
              match Tex3DS_BufferGet bc sc with
              | none => none
              | some (w3, bd, sd) =>
                some ((w0.toNat <<< 0) ||| (w1.toNat <<< 8) |||
                  (w2.toNat <<< 16) ||| (w3.toNat <<< 24), 0x80000000, bd, sd)
      else some (word, mask, b, src)) with
    | none => some (false, iov, out, b, src)
    | some (word1, mask1, b1, s1) =>
      match tree[node]? with
      | none => none
      | some tb =>
        let offset := tb.toNat &&& 0x1F
        let child0 := (node &&& (sizeTMax - 1)) + offset * 2 + 2
        let dataMask := (1 <<< 8) - 1
        if word1 &&& mask1 ≠ 0 then
          if tb.toNat &&& 0x40 ≠ 0 then
            match tree[child0 + 1]? with
            | none => none
            | some dv =>
              match iov_set iov out (UInt8.ofNat (dv.toNat &&& dataMask)) with
              | none => none
              | some iov2 =>
                match iov_increment iov2 out with
                | none => none
                | some out2 =>
                  huff_go fuel b1 s1 tree iov2 out2 (size - 1) 1 word1 (mask1 >>> 1)
          else huff_go fuel b1 s1 tree iov out size (child0 + 1) word1 (mask1 >>> 1)
        else
          if tb.toNat &&& 0x80 ≠ 0 then
            match tree[child0]? with
            | none => none
            | some dv =>
              match iov_set iov out (UInt8.ofNat (dv.toNat &&& dataMask)) with
              | none => none
              | some iov2 =>
                match iov_increment iov2 out with
                | none => none
                | some out2 =>
                  huff_go fuel b1 s1 tree iov2 out2 (size - 1) 1 word1 (mask1 >>> 1)
          else huff_go fuel b1 s1 tree iov out size child0 word1 (mask1 >>> 1)

/-- Model of `huff_decode` (decompress.c:408): read the tree-size byte,
then `2 * (n + 1) - 1` further tree-table bytes, then run the bit-driven
decoding loop starting at the root (node 1) with an exhausted bit
window.  Between two emissions the node index strictly grows and stays
below the 512-byte tree, and a refill happens at most every 32 bits, so
`520 * size + 40` iterations always suffice. -/
def huff_decode (b : Buf) (src : Source) (iov : Regions) (size : Nat) :
    Option (Bool × Regions × IovIter × Buf × Source) :=
  match Tex3DS_BufferRead b src 1 with
  | none => some (false, iov, ⟨0, 0⟩, b, src)
  | some (ns, b1, s1) =>
    match Tex3DS_BufferRead b1 s1 (((ns.headD 0).toNat + 1) * 2 - 1) with
    | none => some (false, iov, ⟨0, 0⟩, b1, s1)
    | some (table, b2, s2) =>
      huff_go (520 * size + 40) b2 s2 (ns ++ table) iov ⟨0, 0⟩ size 1 0 0

/-- Loop of `rle_decode` (decompress.c:532), fuelled: read a control byte;
high bit set is a run (`(byte & 0x7F) + 3` copies of the next byte), high
bit clear is a literal run (`(byte & 0x7F) + 1` raw bytes), both clamped
to the remaining budget. -/
def rle_go : Nat → Buf → Source → Regions → IovIter → Nat →
    Option (Bool × Regions × IovIter × Buf × Source)
  | 0, b, src, iov, out, size =>
    if size = 0 then some (true, iov, out, b, src) else none
  | fuel + 1, b, src, iov, out, size =>
    if size = 0 then some (true, iov, out, b, src) else
    match Tex3DS_BufferGet b src with
    | none => some (false, iov, out, b, src)
    | some (c, b1, s1) =>
      if c.toNat &&& 0x80 ≠ 0 then
        let len := min ((c.toNat &&& 0x7F) + 3) size
        match Tex3DS_BufferGet b1 s1 with
        | none => some (false, iov, out, b1, s1)
        | some (v, b2, s2) =>
          match iov_memset iov out v len with
          | none => none
          | some (iov2, out2) => rle_go fuel b2 s2 iov2 out2 (size - len)
      else
        let len := min ((c.toNat &&& 0x7F) + 1) size
        match iov_read b1 s1 iov out len with
        | none => none
        | some (ok, iov2, out2, b2, s2) =>
          if ok then rle_go fuel b2 s2 iov2 out2 (size - len)
          else some (false, iov2, out2, b2, s2)

/-- Model of `rle_decode` (decompress.c:524). -/
def rle_decode (b : Buf) (src : Source) (iov : Regions) (size : Nat) :
    Option (Bool × Regions × IovIter × Buf × Source) :=
  rle_go size b src iov ⟨0, 0⟩ size

/-- Drop the iterator component of a decode result, keeping the success
flag, the output regions and the final stream state. -/
def dropIter (r : Bool × Regions × IovIter × Buf × Source) :
    Bool × Regions × Buf × Source :=
  (r.1, r.2.1, r.2.2.2)

/-- Model of `Tex3DS_DecompressV` (decompress.c:586): reject an empty
region set, read the 4-byte header, split it into the kind byte and the
24-bit declared size, read 4 more bytes into bits 24-31 when the kind
byte's top bit is set, clamp the size to the total region capacity, and
dispatch on the kind. -/
def Tex3DS_DecompressV (b : Buf) (src : Source) (iov : Regions) :
    Option (Bool × Regions × Buf × Source) :=
  if iov.length = 0 then some (false, iov, b, src) else
  match Tex3DS_BufferRead b src 4 with
  | none => some (false, iov, b, src)
  | some (hdr, b1, s1) =>
    let t := (hdr.getD 0 0).toNat
    let size0 := (hdr.getD 1 0).toNat ||| ((hdr.getD 2 0).toNat <<< 8) |||
      ((hdr.getD 3 0).toNat <<< 16)
    match (if t &&& 0x80 ≠ 0 then
        (Tex3DS_BufferRead b1 s1 4).map (fun r =>
          (t &&& 0x7F, size0 ||| ((r.1.getD 0 0).toNat <<< 24), r.2.1, r.2.2))
      else some (t, size0, b1, s1)) with
    | none => some (false, iov, b1, s1)
    | some (kind, size1, b2, s2) =>
      let size := if iov_size iov < size1 then iov_size iov else size1
      if kind = 0x00 then (iov_read b2 s2 iov ⟨0, 0⟩ size).map dropIter
      else if kind = 0x10 then (lzss_decode b2 s2 iov size).map dropIter
      else if kind = 0x11 then (lz11_decode b2 s2 iov size).map dropIter
      else if kind = 0x28 then (huff_decode b2 s2 iov size).map dropIter
      else if kind = 0x30 then (rle_decode b2 s2 iov size).map dropIter
      else some (false, iov, b2, s2)

/-- Claim C1: evaluation of the LZSS decoder at the claim's own example —
a pre-filled buffer holding flag byte `0x40` (literal, then compressed
block), literal byte `0x41` (`A`), and back-reference header
`0x30 0x00` (`length = 6`, copy distance `1`), decoded with effective
size 7 into seven zeroed bytes.  The claim demands seven `A` bytes; the
code hands the already-decremented remaining budget (here 0) to
`iov_memmove` instead of `len`, so it copies nothing: the decode returns
success with only the literal byte written. -/
theorem lzss_overlap_backref_eval :
    lzss_decode ⟨[0x40, 0x41, 0x30, 0x00], 4, 4, 0, 0⟩ [] [[0, 0, 0, 0, 0, 0, 0]] 7 =
      some (true, [[0x41, 0, 0, 0, 0, 0, 0]], ⟨0, 1⟩,
        ⟨[0x40, 0x41, 0x30, 0x00], 4, 4, 4, 4⟩, []) ∧
    ([[0x41, 0, 0, 0, 0, 0, 0]] : Regions) ≠ [List.replicate 7 0x41] := by
  exact ⟨rfl, by decide⟩

/-- Claim C2: evaluation of `iov_memmove` at a minimal failing input — one
three-byte region, both cursors at the start, `n = 1`.  The claim demands
that both cursors end advanced by exactly 1; instead the code calls
`iov_add` with the loop counter that `while(bytes-- > 0)` has wrapped to
`SIZE_MAX`, which walks off the end of the region array (undefined
behaviour, modelled as `none`). -/
theorem iov_memmove_single_byte_eval :
    iov_memmove [[1, 2, 3]] ⟨0, 0⟩ ⟨0, 0⟩ 1 = none := by
  exact rfl

/-- Claim C3: evaluation of `Tex3DS_DecompressV` at a truncating stored
decode — header `00 0A 00 00` (kind stored, declared size 10) with three
payload bytes into a single three-byte region.  The claim demands that
exactly the 3-byte capacity is produced and the decode succeeds; instead,
after the final byte is written, `iov_add` dereferences the region at
index `iovcnt` (undefined behaviour, modelled as `none`), so the decode
cannot succeed. -/
theorem decompressV_stored_truncation_eval :
    Tex3DS_DecompressV ⟨[0x00, 0x0A, 0x00, 0x00, 0xAA, 0xBB, 0xCC], 7, 7, 0, 0⟩ []
      [[0, 0, 0]] = none := by
  exact rfl

/-- Claim C4: evaluation of `Tex3DS_BufferRead` delivering 2 resident
bytes.  The claim demands that `total` grows by the number of delivered
bytes on every successful read; the read succeeds, delivers both bytes,
yet leaves `total` at 0 because `Tex3DS_BufferRead` never updates it
(only the `Tex3DS_BufferGet` fast path does). -/
theorem bufferRead_total_eval :
    Tex3DS_BufferRead ⟨[1, 2], 2, 2, 0, 0⟩ [] 2 =
      some ([1, 2], ⟨[1, 2], 2, 2, 2, 0⟩, []) ∧ (0 : Nat) ≠ 0 + 2 := by
  exact ⟨rfl, by decide⟩

/-- Claim C10: evaluation of `iov_read` filling a two-byte region with
exactly two bytes (the effective size equals the total capacity).  The
claim demands that every region-array access, including the final
advance, stays at an index `< iovcnt`; instead the final `iov_add`
dereferences the region at index `iovcnt` (undefined behaviour, modelled
as `none`). -/
theorem iov_read_exact_capacity_eval :
    iov_read ⟨[0x11, 0x22], 2, 2, 0, 0⟩ [] [[0, 0]] ⟨0, 0⟩ 2 = none := by
  exact rfl


/-- Claim C7: the LZ11 variable-width block-header parse.  For a buffer
with at least four resident bytes, the parse consumes exactly 3, 4 or 2
header bytes according to the top nibble of the first byte being 0, 1 or
anything else, producing `length = (byte0<<4 | byte1>>4) + 0x11`,
`length = ((byte0&0xF)<<12 | byte1<<4 | byte2>>4) + 0x111` or
`length = (byte0>>4) + 1` respectively, with the displacement always the
final 12 bits of the last two bytes processed. -/
theorem lz11_block_header_spec (b : Buf) (src : Source) (h4 : b.pos + 4 ≤ b.size) :
    ((b.data[b.pos]?.getD 0).toNat >>> 4 = 0 →
      lz11_block_header b src = some (
        (((b.data[b.pos]?.getD 0).toNat <<< 4) |||
          ((b.data[b.pos + 1]?.getD 0).toNat >>> 4)) + 0x11,
        (((b.data[b.pos + 1]?.getD 0).toNat &&& 0x0F) <<< 8) |||
          (b.data[b.pos + 2]?.getD 0).toNat,
        { b with pos := b.pos + 3, total := b.total + 3 }, src)) ∧
    ((b.data[b.pos]?.getD 0).toNat >>> 4 = 1 →
      lz11_block_header b src = some (
        ((((b.data[b.pos]?.getD 0).toNat &&& 0x0F) <<< 12) |||
          ((b.data[b.pos + 1]?.getD 0).toNat <<< 4) |||
          ((b.data[b.pos + 2]?.getD 0).toNat >>> 4)) + 0x111,
        (((b.data[b.pos + 2]?.getD 0).toNat &&& 0x0F) <<< 8) |||
          (b.data[b.pos + 3]?.getD 0).toNat,
        { b with pos := b.pos + 4, total := b.total + 4 }, src)) ∧
    (2 ≤ (b.data[b.pos]?.getD 0).toNat >>> 4 →
      lz11_block_header b src = some (
        ((b.data[b.pos]?.getD 0).toNat >>> 4) + 1,
        (((b.data[b.pos]?.getD 0).toNat &&& 0x0F) <<< 8) |||
          (b.data[b.pos + 1]?.getD 0).toNat,
        { b with pos := b.pos + 2, total := b.total + 2 }, src)) := by
  have h0 : b.pos < b.size := by omega
  have h1 : b.pos + 1 < b.size := by omega
  have h2 : b.pos + 1 + 1 < b.size := by omega
  have h3 : b.pos + 1 + 1 + 1 < b.size := by omega
  have e2 : b.pos + 1 + 1 = b.pos + 2 := by omega
  have e3 : b.pos + 1 + 1 + 1 = b.pos + 3 := by omega
  have e4 : b.pos + 1 + 1 + 1 + 1 = b.pos + 4 := by omega
  have t2 : b.total + 1 + 1 = b.total + 2 := by omega
  have t3 : b.total + 1 + 1 + 1 = b.total + 3 := by omega
  have t4 : b.total + 1 + 1 + 1 + 1 = b.total + 4 := by omega
  refine ⟨?_, ?_, ?_⟩ <;> intro hn
  · simp [lz11_block_header, Tex3DS_BufferGet, h0, h1, h2, hn, e2, e3, t3]
  · simp [lz11_block_header, Tex3DS_BufferGet, h0, h1, h2, h3, hn, e2, e3, e4, t4]
  · have hz : ¬ (b.data[b.pos]?.getD 0).toNat >>> 4 = 0 := by omega
    have ho : ¬ (b.data[b.pos]?.getD 0).toNat >>> 4 = 1 := by omega
    simp [lz11_block_header, Tex3DS_BufferGet, h0, h1, hz, ho, e2, t2]


/-- Claim C7 witness: the normal-block case at the concrete header bytes
`2A BC DE F0` — two bytes consumed, `length = 3`,
`displacement = 0xABC`. -/
theorem lz11_block_header_spec_witness :
    2 ≤ (([0x2A, 0xBC, 0xDE, 0xF0] : List UInt8)[(0 : Nat)]?.getD 0).toNat >>> 4 ∧
    lz11_block_header ⟨[0x2A, 0xBC, 0xDE, 0xF0], 4, 4, 0, 0⟩ [] =
      some (3, 0xABC, ⟨[0x2A, 0xBC, 0xDE, 0xF0], 4, 4, 2, 2⟩, []) :=
  ⟨by decide,
    (lz11_block_header_spec ⟨[0x2A, 0xBC, 0xDE, 0xF0], 4, 4, 0, 0⟩ []
      (by decide)).2.2 (by decide)⟩


/-- Claim C9: for any header whose kind field (the type byte with the top
bit cleared) is none of `0x00`, `0x10`, `0x11`, `0x28`, `0x30`,
`Tex3DS_DecompressV` returns failure with the output regions unchanged
(no output byte written). -/
theorem decompressV_unknown_kind (b : Buf) (src : Source) (iov : Regions)
    (h8 : b.pos + 8 ≤ b.size) (hiov : iov ≠ [])
    (hk0 : (b.data[b.pos]?.getD 0).toNat &&& 0x7F ≠ 0x00)
    (hk1 : (b.data[b.pos]?.getD 0).toNat &&& 0x7F ≠ 0x10)
    (hk2 : (b.data[b.pos]?.getD 0).toNat &&& 0x7F ≠ 0x11)
    (hk3 : (b.data[b.pos]?.getD 0).toNat &&& 0x7F ≠ 0x28)
    (hk4 : (b.data[b.pos]?.getD 0).toNat &&& 0x7F ≠ 0x30) :
    ∃ b2, Tex3DS_DecompressV b src iov = some (false, iov, b2, src) := by
  have hlen : ¬ iov.length = 0 := by
    intro h
    exact hiov (List.eq_nil_of_length_eq_zero h)
  have hr1 : Tex3DS_BufferRead b src 4 =
      some ((b.data.drop b.pos).take 4, { b with pos := b.pos + 4 }, src) := by
    rw [Tex3DS_BufferRead.eq_def]
    simp [show (4 : Nat) ≤ b.size - b.pos by omega]
  have hr2 : Tex3DS_BufferRead { b with pos := b.pos + 4 } src 4 =
      some ((b.data.drop (b.pos + 4)).take 4,
        { b with pos := b.pos + 4 + 4 }, src) := by
    rw [Tex3DS_BufferRead.eq_def]
    simp [show (4 : Nat) ≤ b.size - (b.pos + 4) by omega]
  have hhd : ((b.data.drop b.pos).take 4).getD 0 0 = b.data[b.pos]?.getD 0 := by
    simp [List.getD, List.getElem?_take, List.getElem?_drop]
  have hmask : ∀ t : Fin 256, t.val &&& 0x80 = 0 → t.val &&& 0x7F = t.val := by decide
  by_cases hbit : (b.data[b.pos]?.getD 0).toNat &&& 0x80 ≠ 0
  · refine ⟨{ b with pos := b.pos + 4 + 4 }, ?_⟩
    simp [Tex3DS_DecompressV, hlen, hr1, hr2, hhd, hbit, hk0, hk1, hk2, hk3, hk4]
  · refine ⟨{ b with pos := b.pos + 4 }, ?_⟩
    push_neg at hbit
    have hlt : (b.data[b.pos]?.getD 0).toNat < 256 := by
      exact (b.data[b.pos]?.getD 0).toNat_lt
    have heq : (b.data[b.pos]?.getD 0).toNat &&& 0x7F =
        (b.data[b.pos]?.getD 0).toNat := hmask ⟨_, hlt⟩ hbit
    rw [heq] at hk0 hk1 hk2 hk3 hk4
    simp [Tex3DS_DecompressV, hlen, hr1, hhd, hbit, hk0, hk1, hk2, hk3, hk4]


/-- Claim C9 witness: kind byte `0x05` with a full 8-byte resident header
rejects the decode leaving the three-byte region untouched. -/
theorem decompressV_unknown_kind_witness :
    ∃ b2, Tex3DS_DecompressV ⟨[0x05, 0x03, 0x00, 0x00, 1, 2, 3, 9], 8, 8, 0, 0⟩ []
      [[0, 0, 0]] = some (false, [[0, 0, 0]], b2, []) :=
  decompressV_unknown_kind ⟨[0x05, 0x03, 0x00, 0x00, 1, 2, 3, 9], 8, 8, 0, 0⟩ []
    [[0, 0, 0]] (by decide) (by decide) (by decide) (by decide) (by decide)
    (by decide) (by decide)

theorem writeRange_length (r : List UInt8) (p : Nat) (bs : List UInt8)
    (h : p + bs.length ≤ r.length) : (writeRange r p bs).length = r.length := by
  simp [writeRange]
  omega

theorem iov_memset_single (r : List UInt8) (p : Nat) (v : UInt8) (len : Nat)
    (hlen : 1 ≤ len) (hfit : p + len < r.length) :
    iov_memset [r] ⟨0, p⟩ v len =
      some ([r.take p ++ List.replicate len v ++ r.drop (p + len)], ⟨0, p + len⟩) := by
  obtain ⟨k, rfl⟩ : ∃ k, len = k + 1 := ⟨len - 1, by omega⟩
  have hp : p < r.length := by omega
  have hb : min (r.length - p) (k + 1) = k + 1 := by omega
  simp [iov_memset, iov_memset_go, iov_add, iov_add_go, writeRange, hp, hb]
  rw [if_pos (by omega : p < p ⊓ r.length + (k + 1 + (r.length - (p + (k + 1)))))]
  rw [if_pos (by omega : k + 1 < p ⊓ r.length + (k + 1 + (r.length - (p + (k + 1)))) - p)]
  cases k <;> simp [iov_memset_go]

theorem iov_read_single (b : Buf) (src : Source) (r : List UInt8) (p len : Nat)
    (bs : List UInt8) (b2 : Buf) (s2 : Source)
    (hlen : 1 ≤ len) (hfit : p + len < r.length)
    (hread : Tex3DS_BufferRead b src len = some (bs, b2, s2))
    (hbs : bs.length = len) :
    iov_read b src [r] ⟨0, p⟩ len =
      some (true, [r.take p ++ bs ++ r.drop (p + len)], ⟨0, p + len⟩, b2, s2) := by
  obtain ⟨k, rfl⟩ : ∃ k, len = k + 1 := ⟨len - 1, by omega⟩
  have hp : p < r.length := by omega
  have hb : min (r.length - p) (k + 1) = k + 1 := by omega
  simp [iov_read, iov_read_go, iov_add, iov_add_go, writeRange, hp, hb, hread, hbs]
  rw [if_pos (by omega : p < p ⊓ r.length + (k + 1 + (r.length - (p + (k + 1)))))]
  rw [if_pos (by omega : k + 1 < p ⊓ r.length + (k + 1 + (r.length - (p + (k + 1)))) - p)]
  cases k <;> simp [iov_read_go]

/-- Claim C6: every RLE step with remaining budget `size > 0` reads one
control byte; with the high bit set it emits `min((byte & 0x7F) + 3, size)`
copies of the next input byte at the cursor, with the high bit clear it
copies `min((byte & 0x7F) + 1, size)` bytes verbatim from the input, in
both cases advancing the cursor and shrinking the budget by that length;
and the two end-to-end examples: declared size 5 with payload `82 FF`
produces `FF FF FF FF FF`, literal control byte `02` followed by
`AA BB CC` produces `AA BB CC`. -/
theorem rle_decode_spec :
    (∀ (fuel : Nat) (b : Buf) (src : Source) (r : List UInt8) (p size : Nat)
      (c v : UInt8) (b1 : Buf) (s1 : Source) (b2 : Buf) (s2 : Source),
      0 < size →
      Tex3DS_BufferGet b src = some (c, b1, s1) →
      c.toNat &&& 0x80 ≠ 0 →
      Tex3DS_BufferGet b1 s1 = some (v, b2, s2) →
      p + min ((c.toNat &&& 0x7F) + 3) size < r.length →
      rle_go (fuel + 1) b src [r] ⟨0, p⟩ size =
        rle_go fuel b2 s2
          [r.take p ++ List.replicate (min ((c.toNat &&& 0x7F) + 3) size) v ++
            r.drop (p + min ((c.toNat &&& 0x7F) + 3) size)]
          ⟨0, p + min ((c.toNat &&& 0x7F) + 3) size⟩
          (size - min ((c.toNat &&& 0x7F) + 3) size)) ∧
    (∀ (fuel : Nat) (b : Buf) (src : Source) (r : List UInt8) (p size : Nat)
      (c : UInt8) (bs : List UInt8) (b1 : Buf) (s1 : Source) (b2 : Buf) (s2 : Source),
      0 < size →
      Tex3DS_BufferGet b src = some (c, b1, s1) →
      c.toNat &&& 0x80 = 0 →
      Tex3DS_BufferRead b1 s1 (min ((c.toNat &&& 0x7F) + 1) size) = some (bs, b2, s2) →
      bs.length = min ((c.toNat &&& 0x7F) + 1) size →
      p + min ((c.toNat &&& 0x7F) + 1) size < r.length →
      rle_go (fuel + 1) b src [r] ⟨0, p⟩ size =
        rle_go fuel b2 s2
          [r.take p ++ bs ++ r.drop (p + min ((c.toNat &&& 0x7F) + 1) size)]
          ⟨0, p + min ((c.toNat &&& 0x7F) + 1) size⟩
          (size - min ((c.toNat &&& 0x7F) + 1) size)) ∧
    Tex3DS_DecompressV ⟨[0x30, 0x05, 0x00, 0x00, 0x82, 0xFF], 6, 6, 0, 0⟩ []
      [[0, 0, 0, 0, 0, 0]] =
      some (true, [[0xFF, 0xFF, 0xFF, 0xFF, 0xFF, 0]],
        ⟨[0x30, 0x05, 0x00, 0x00, 0x82, 0xFF], 6, 6, 6, 2⟩, []) ∧
    Tex3DS_DecompressV ⟨[0x30, 0x03, 0x00, 0x00, 0x02, 0xAA, 0xBB, 0xCC], 8, 8, 0, 0⟩ []
      [[0, 0, 0, 0]] =
      some (true, [[0xAA, 0xBB, 0xCC, 0]],
        ⟨[0x30, 0x03, 0x00, 0x00, 0x02, 0xAA, 0xBB, 0xCC], 8, 8, 8, 1⟩, []) := by
  refine ⟨?_, ?_, rfl, rfl⟩
  · intro fuel b src r p size c v b1 s1 b2 s2 hsz hget hbit hget2 hfit
    have hmem := iov_memset_single r p v (min ((c.toNat &&& 0x7F) + 3) size)
      (by omega) hfit
    simp [rle_go, hget, hbit, hget2, hmem, show ¬ size = 0 by omega]
  · intro fuel b src r p size c bs b1 s1 b2 s2 hsz hget hbit hread hbs hfit
    have hrd := iov_read_single b1 s1 r p (min ((c.toNat &&& 0x7F) + 1) size)
      bs b2 s2 (by omega) hfit hread hbs
    simp [rle_go, hget, hbit, hrd, show ¬ size = 0 by omega]

/-- Claim C6 witness: the repeat-run step at control byte `0x81`
(`length = 4` after clamping to the budget 4) writes four copies of
`0x55`. -/
theorem rle_decode_spec_witness :
    Tex3DS_BufferGet ⟨[0x81, 0x55], 2, 2, 0, 0⟩ [] =
      some (0x81, ⟨[0x81, 0x55], 2, 2, 1, 1⟩, []) ∧
    rle_go 1 ⟨[0x81, 0x55], 2, 2, 0, 0⟩ [] [[0, 0, 0, 0, 0, 0]] ⟨0, 0⟩ 4 =
      rle_go 0 ⟨[0x81, 0x55], 2, 2, 2, 2⟩ []
        [[0x55, 0x55, 0x55, 0x55, 0, 0]] ⟨0, 4⟩ 0 :=
  ⟨rfl,
    rle_decode_spec.1 0 ⟨[0x81, 0x55], 2, 2, 0, 0⟩ [] [0, 0, 0, 0, 0, 0] 0 4
      0x81 0x55 ⟨[0x81, 0x55], 2, 2, 1, 1⟩ [] ⟨[0x81, 0x55], 2, 2, 2, 2⟩ []
      (by decide) rfl (by decide) rfl (by decide)⟩

/-- The unread bytes currently resident in the buffer,
`data[pos .. size)`. -/
def residentBytes (b : Buf) : List UInt8 :=
  (b.data.drop b.pos).take (b.size - b.pos)

/-- All bytes the pull source would ever hand over, in order (error
results contribute nothing). -/
def sourceBytes : Source → List UInt8
  | [] => []
  | c :: rest => c.getD [] ++ sourceBytes rest

/-- Number of bytes available from the source before it first reports
EOF (empty fill or exhaustion) or an I/O error. -/
def goodLen : Source → Nat
  | [] => 0
  | none :: _ => 0
  | some d :: rest => if d.length = 0 then 0 else d.length + goodLen rest

/-- Length of the resident bytes under the buffer invariant. -/
theorem residentBytes_length (b : Buf) (hsz : b.size ≤ b.data.length) :
    (residentBytes b).length = b.size - b.pos := by
  simp [residentBytes]
  omega

/-- On success, `Tex3DS_BufferRead` delivers exactly the first `n` bytes
of the resident bytes followed by the source bytes. -/
theorem bufferRead_delivers : ∀ (src : Source) (b : Buf) (n : Nat)
    (bs : List UInt8) (b2 : Buf) (s2 : Source),
    b.pos ≤ b.size → b.size ≤ b.data.length →
    Tex3DS_BufferRead b src n = some (bs, b2, s2) →
    bs.length = n ∧ bs = (residentBytes b ++ sourceBytes src).take n := by
  intro src
  induction src with
  | nil =>
    intro b n bs b2 s2 hpos hsz hread
    rw [Tex3DS_BufferRead.eq_def] at hread
    by_cases hn : n = 0
    · subst hn
      simp at hread
      simp [hread.1]
    · by_cases hres : n ≤ b.size - b.pos
      · simp [hn, hres] at hread
        obtain ⟨hbs, -, -⟩ := hread
        subst hbs
        have hrl := residentBytes_length b hsz
        refine ⟨by simp; omega, ?_⟩
        rw [List.take_append_of_le_length (by omega)]
        simp [residentBytes, List.take_take]
        omega
      · simp [hn, hres] at hread
  | cons c rest ih =>
    intro b n bs b2 s2 hpos hsz hread
    rw [Tex3DS_BufferRead.eq_def] at hread
    by_cases hn : n = 0
    · subst hn
      simp at hread
      simp [hread.1]
    · have hrl := residentBytes_length b hsz
      by_cases hres : n ≤ b.size - b.pos
      · simp [hn, hres] at hread
        obtain ⟨hbs, -, -⟩ := hread
        subst hbs
        refine ⟨by simp; omega, ?_⟩
        rw [List.take_append_of_le_length (by omega)]
        simp [residentBytes, List.take_take]
        omega
      · match c with
        | none => simp [hn, hres] at hread
        | some d =>
          by_cases hd : d.length = 0
          · simp [hn, hres, hd] at hread
          · simp only [if_neg hn, if_neg hres, if_neg hd] at hread
            cases hrec : Tex3DS_BufferRead
                { data := d, limit := b.limit, size := d.length, pos := 0,
                  total := b.total } rest (n - (b.size - b.pos)) with
            | none => rw [hrec] at hread; simp at hread
            | some trip =>
              obtain ⟨bs2, c2, t2⟩ := trip
              rw [hrec] at hread
              simp only [Option.some.injEq, Prod.mk.injEq] at hread
              obtain ⟨hbs, -, -⟩ := hread
              have hih := ih ⟨d, b.limit, d.length, 0, b.total⟩
                (n - (b.size - b.pos)) bs2 c2 t2 (by simp) (by simp) hrec
              have hdres : residentBytes ⟨d, b.limit, d.length, 0, b.total⟩ = d := by
                simp [residentBytes]
              rw [hdres] at hih
              constructor
              · rw [← hbs]
                simp [hih.1]
                omega
              · rw [← hbs]
                show residentBytes b ++ bs2 = _
                rw [show sourceBytes (some d :: rest) = d ++ sourceBytes rest from rfl]
                rw [List.take_append_eq_append_take]
                rw [List.take_of_length_le (by omega), hrl]
                rw [hih.2]

/-- `Tex3DS_BufferRead` succeeds exactly when the resident bytes plus the
bytes available before the source first fails cover the request; a zero
or negative source return inside the request makes the whole call fail
with no partial result. -/
theorem bufferRead_isSome : ∀ (src : Source) (b : Buf) (n : Nat),
    b.pos ≤ b.size →
    ((Tex3DS_BufferRead b src n).isSome ↔ n ≤ (b.size - b.pos) + goodLen src) := by
  intro src
  induction src with
  | nil =>
    intro b n hpos
    rw [Tex3DS_BufferRead.eq_def]
    by_cases hn : n = 0
    · simp [hn, goodLen]
    · by_cases hres : n ≤ b.size - b.pos
      · simp [hn, hres, goodLen]
      · simp [hn, hres, goodLen]
  | cons c rest ih =>
    intro b n hpos
    rw [Tex3DS_BufferRead.eq_def]
    by_cases hn : n = 0
    · simp [hn]
    · by_cases hres : n ≤ b.size - b.pos
      · match c with
        | none => simp [hn, hres, goodLen]
        | some d =>
          by_cases hd : d.length = 0
          · simp [hn, hres, goodLen, hd]
          · simp [hn, hres, goodLen, hd]
            omega
      · match c with
        | none =>
          simp [hn, hres, goodLen]
        | some d =>
          by_cases hd : d.length = 0
          · simp [hn, hres, goodLen, hd]
          · simp only [if_neg hn, if_neg hres, if_neg hd]
            have hih := ih ⟨d, b.limit, d.length, 0, b.total⟩
              (n - (b.size - b.pos)) (by simp)
            simp only [goodLen, if_neg hd]
            cases hrec : Tex3DS_BufferRead ⟨d, b.limit, d.length, 0, b.total⟩
                rest (n - (b.size - b.pos)) with
            | none =>
              rw [hrec] at hih
              simp at hih
              simp
              omega
            | some trip =>
              rw [hrec] at hih
              simp at hih
              obtain ⟨bs2, c2, t2⟩ := trip
              simp
              omega



/-- Claim C5: `read_exact` drains resident bytes first and then pulls,
delivering on success exactly the `n` requested bytes (the next `n` bytes
of resident-then-source data); it fails — returning nothing, with no
partial-success value — exactly when the source reports EOF or an error
before `n` bytes are available; and two sources carrying the same byte
sequence in different chunkings deliver identical bytes. -/
theorem bufferRead_read_exact_spec (b : Buf) (src : Source) (n : Nat)
    (hpos : b.pos ≤ b.size) (hsz : b.size ≤ b.data.length) :
    (∀ bs b2 s2, Tex3DS_BufferRead b src n = some (bs, b2, s2) →
      bs.length = n ∧ bs = (residentBytes b ++ sourceBytes src).take n) ∧
    ((Tex3DS_BufferRead b src n).isSome ↔ n ≤ (b.size - b.pos) + goodLen src) ∧
    (∀ (src2 : Source) (bs : List UInt8) (b2 : Buf) (s2 : Source)
      (bs2 : List UInt8) (c2 : Buf) (t2 : Source),
      sourceBytes src = sourceBytes src2 →
      Tex3DS_BufferRead b src n = some (bs, b2, s2) →
      Tex3DS_BufferRead b src2 n = some (bs2, c2, t2) →
      bs = bs2) := by
  refine ⟨fun bs b2 s2 h => bufferRead_delivers src b n bs b2 s2 hpos hsz h,
    bufferRead_isSome src b n hpos, ?_⟩
  intro src2 bs b2 s2 bs2 c2 t2 hsrc h1 h2
  rw [(bufferRead_delivers src b n bs b2 s2 hpos hsz h1).2,
    (bufferRead_delivers src2 b n bs2 c2 t2 hpos hsz h2).2, hsrc]

/-- Claim C5 witness: a read of 4 bytes straddling a refill (2 resident
bytes, then a 2-byte pull) delivers `01 02 03 04`, and succeeds since
2 resident + 3 good source bytes cover the request. -/
theorem bufferRead_read_exact_spec_witness :
    (([1, 2, 3, 4] : List UInt8).length = 4 ∧
      ([1, 2, 3, 4] : List UInt8) =
        (residentBytes ⟨[9, 1, 2], 3, 3, 1, 0⟩ ++
          sourceBytes [some [3, 4], some [5]]).take 4) ∧
    ((Tex3DS_BufferRead ⟨[9, 1, 2], 3, 3, 1, 0⟩ [some [3, 4], some [5]] 4).isSome ↔
      4 ≤ (3 - 1) + goodLen [some [3, 4], some [5]]) :=
  ⟨(bufferRead_read_exact_spec ⟨[9, 1, 2], 3, 3, 1, 0⟩ [some [3, 4], some [5]] 4
      (by decide) (by decide)).1 [1, 2, 3, 4] ⟨[3, 4], 3, 2, 2, 0⟩ [some [5]] rfl,
    (bufferRead_read_exact_spec ⟨[9, 1, 2], 3, 3, 1, 0⟩ [some [3, 4], some [5]] 4
      (by decide) (by decide)).2.1⟩


/-- The list of region sizes of an output region set. -/
def regionSizes (iov : Regions) : List Nat :=
  iov.map List.length

/-- Flat (logical-stream) offset of an iterator position: bytes of all
regions before the current one plus the in-region offset. -/
def flatPos (iov : Regions) (it : IovIter) : Nat :=
  ((iov.take it.num).map List.length).sum + it.pos

/-- Setting a list element to its current value is the identity. -/
theorem set_self_of_getElem? {α : Type} (l : List α) (i : Nat) (a : α)
    (h : l[i]? = some a) : l.set i a = l := by
  induction l generalizing i with
  | nil => simp at h
  | cons x xs ih =>
    cases i with
    | zero => simp at h; simp [h]
    | succ j => simp at h; simp [ih j h]

/-- A byte store through the iterator never changes any region size. -/
theorem iov_set_regionSizes (iov : Regions) (it : IovIter) (v : UInt8)
    (iov2 : Regions) (h : iov_set iov it v = some iov2) :
    regionSizes iov2 = regionSizes iov := by
  unfold iov_set at h
  cases hr : iov[it.num]? with
  | none => rw [hr] at h; simp at h
  | some r =>
    rw [hr] at h
    dsimp only at h
    by_cases hp : it.pos < r.length
    · rw [if_pos hp] at h
      simp only [Option.some.injEq] at h
      subst h
      simp only [regionSizes, List.map_set, List.length_set]
      apply set_self_of_getElem?
      simp [hr]
    · rw [if_neg hp] at h; simp at h

/-- The flat offset only depends on the region sizes. -/
theorem flatPos_congr (iov iov2 : Regions) (it : IovIter)
    (h : regionSizes iov2 = regionSizes iov) :
    flatPos iov2 it = flatPos iov it := by
  unfold flatPos
  have : (iov2.take it.num).map List.length = (iov.take it.num).map List.length := by
    rw [List.map_take, List.map_take]
    unfold regionSizes at h
    rw [h]
  rw [this]

/-- A successful `iov_increment` advances the flat offset by exactly 1. -/
theorem iov_increment_flatPos (iov : Regions) (it it2 : IovIter)
    (h : iov_increment iov it = some it2) :
    flatPos iov it2 = flatPos iov it + 1 := by
  unfold iov_increment at h
  cases hr : iov[it.num]? with
  | none => rw [hr] at h; simp at h
  | some r =>
    rw [hr] at h
    dsimp only at h
    by_cases hp : it.pos < r.length
    · rw [if_pos hp] at h
      simp only [Option.some.injEq] at h
      subst h
      by_cases he : it.pos + 1 = r.length
      · rw [if_pos he]
        unfold flatPos
        simp only
        rw [List.take_succ, hr]
        simp
        omega
      · rw [if_neg he]
        unfold flatPos
        simp
        omega
    · rw [if_neg hp] at h; simp at h


/-- The Huffman decode loop, whenever it returns success, has emitted
exactly `size` bytes: the output cursor's flat offset advanced by `size`
and no region size changed. -/
theorem huff_go_advance : ∀ (fuel : Nat) (b : Buf) (src : Source)
    (tree : List UInt8) (iov : Regions) (out : IovIter)
    (size node word mask : Nat) (iov2 : Regions) (out2 : IovIter)
    (b2 : Buf) (s2 : Source),
    huff_go fuel b src tree iov out size node word mask =
      some (true, iov2, out2, b2, s2) →
    regionSizes iov2 = regionSizes iov ∧
      flatPos iov2 out2 = flatPos iov out + size := by
  intro fuel
  induction fuel with
  | zero =>
    intro b src tree iov out size node word mask iov2 out2 b2 s2 h
    simp only [huff_go] at h
    by_cases hs : size = 0
    · rw [if_pos hs] at h
      simp only [Option.some.injEq, Prod.mk.injEq] at h
      obtain ⟨-, h1, h2, -, -⟩ := h
      subst h1; subst h2
      exact ⟨rfl, by omega⟩
    · rw [if_neg hs] at h
      simp at h
  | succ fuel ih =>
    intro b src tree iov out size node word mask iov2 out2 b2 s2 h
    simp only [huff_go] at h
    by_cases hs : size = 0
    · rw [if_pos hs] at h
      simp only [Option.some.injEq, Prod.mk.injEq] at h
      obtain ⟨-, h1, h2, -, -⟩ := h
      subst h1; subst h2
      exact ⟨rfl, by omega⟩
    · rw [if_neg hs] at h
      cases hrefill : (if mask = 0 then
          match Tex3DS_BufferGet b src with
          | none => none
          | some (w0, ba, sa) =>
            match Tex3DS_BufferGet ba sa with
            | none => none
            | some (w1, bb, sb) =>
              match Tex3DS_BufferGet bb sb with
              | none => none
              | some (w2, bc, sc) =>
                match Tex3DS_BufferGet bc sc with
                | none => none
                | some (w3, bd, sd) =>
                  some ((w0.toNat <<< 0) ||| (w1.toNat <<< 8) |||
                    (w2.toNat <<< 16) ||| (w3.toNat <<< 24), 0x80000000, bd, sd)
        else some (word, mask, b, src)) with
      | none =>
        rw [hrefill] at h
        simp at h
      | some q =>
        obtain ⟨word1, mask1, b1, s1⟩ := q
        rw [hrefill] at h
        dsimp only at h
        cases htn : tree[node]? with
        | none => rw [htn] at h; simp at h
        | some tb =>
          rw [htn] at h
          dsimp only at h
          by_cases hbit : word1 &&& mask1 ≠ 0
          · rw [if_pos hbit] at h
            by_cases hterm : tb.toNat &&& 0x40 ≠ 0
            · rw [if_pos hterm] at h
              cases hdv : tree[(node &&& (sizeTMax - 1)) + (tb.toNat &&& 0x1F) * 2 + 2 + 1]? with
              | none => rw [hdv] at h; simp at h
              | some dv =>
                rw [hdv] at h
                dsimp only at h
                cases hset : iov_set iov out (UInt8.ofNat (dv.toNat &&& ((1 <<< 8) - 1))) with
                | none => rw [hset] at h; simp at h
                | some iove =>
                  rw [hset] at h
                  dsimp only at h
                  cases hinc : iov_increment iove out with
                  | none => rw [hinc] at h; simp at h
                  | some oute =>
                    rw [hinc] at h
                    dsimp only at h
                    obtain ⟨hsz, hfp⟩ := ih b1 s1 tree iove oute (size - 1) 1
                      word1 (mask1 >>> 1) iov2 out2 b2 s2 h
                    have hszs := iov_set_regionSizes iov out _ iove hset
                    refine ⟨by rw [hsz, hszs], ?_⟩
                    rw [hfp, iov_increment_flatPos iove out oute hinc,
                      flatPos_congr iov iove out hszs]
                    omega
            · rw [if_neg hterm] at h
              exact ih b1 s1 tree iov out size _ word1 (mask1 >>> 1) iov2 out2 b2 s2 h
          · rw [if_neg hbit] at h
            by_cases hterm : tb.toNat &&& 0x80 ≠ 0
            · rw [if_pos hterm] at h
              cases hdv : tree[(node &&& (sizeTMax - 1)) + (tb.toNat &&& 0x1F) * 2 + 2]? with
              | none => rw [hdv] at h; simp at h
              | some dv =>
                rw [hdv] at h
                dsimp only at h
                cases hset : iov_set iov out (UInt8.ofNat (dv.toNat &&& ((1 <<< 8) - 1))) with
                | none => rw [hset] at h; simp at h
                | some iove =>
                  rw [hset] at h
                  dsimp only at h
                  cases hinc : iov_increment iove out with
                  | none => rw [hinc] at h; simp at h
                  | some oute =>
                    rw [hinc] at h
                    dsimp only at h
                    obtain ⟨hsz, hfp⟩ := ih b1 s1 tree iove oute (size - 1) 1
                      word1 (mask1 >>> 1) iov2 out2 b2 s2 h
                    have hszs := iov_set_regionSizes iov out _ iove hset
                    refine ⟨by rw [hsz, hszs], ?_⟩
                    rw [hfp, iov_increment_flatPos iove out oute hinc,
                      flatPos_congr iov iove out hszs]
                    omega
            · rw [if_neg hterm] at h
              exact ih b1 s1 tree iov out size _ word1 (mask1 >>> 1) iov2 out2 b2 s2 h



/-- Claim C8: the Huffman decoder (a) emits exactly `size` bytes and then
stops, and (b) on the concrete stream — tree-size byte `02` hence 5
further tree-table bytes `80 41 C0 42 43` (root: terminal left child
`A`, internal right child whose children are terminal `B`/`C`), then one
little-endian 32-bit word `00 00 00 58` consumed most-significant bit
first (bits `0 10 11 0`) — produces exactly `41 42 43 41` (`A B C A`),
which checks the tree-table byte count, the little-endian window refill,
the MSB-first bit order, the child indexing
`(node & ~1) + 2*(tree[node] & 0x1F) + 2 (+1 for a 1 bit)` and the
per-side terminal flags `0x80`/`0x40`. -/
theorem huff_decode_spec :
    (∀ (fuel : Nat) (b : Buf) (src : Source) (tree : List UInt8)
      (iov : Regions) (out : IovIter) (size node word mask : Nat)
      (iov2 : Regions) (out2 : IovIter) (b2 : Buf) (s2 : Source),
      huff_go fuel b src tree iov out size node word mask =
        some (true, iov2, out2, b2, s2) →
      regionSizes iov2 = regionSizes iov ∧
        flatPos iov2 out2 = flatPos iov out + size) ∧
    huff_decode ⟨[0x02, 0x80, 0x41, 0xC0, 0x42, 0x43, 0x00, 0x00, 0x00, 0x58],
        10, 10, 0, 0⟩ [] [[0, 0, 0, 0]] 4 =
      some (true, [[0x41, 0x42, 0x43, 0x41]], ⟨1, 0⟩,
        ⟨[0x02, 0x80, 0x41, 0xC0, 0x42, 0x43, 0x00, 0x00, 0x00, 0x58],
          10, 10, 10, 4⟩, []) :=
  ⟨huff_go_advance, rfl⟩

/-- Claim C8 witness: the emission-count theorem applied to the concrete
run of the decode loop of the C8 example (4 bytes emitted from flat
offset 0 over a single 4-byte region). -/
theorem huff_decode_spec_witness :
    regionSizes [[0x41, 0x42, 0x43, 0x41]] = regionSizes [[0, 0, 0, 0]] ∧
    flatPos [[0x41, 0x42, 0x43, 0x41]] ⟨1, 0⟩ = flatPos [[0, 0, 0, 0]] ⟨0, 0⟩ + 4 :=
  huff_decode_spec.1 12
    ⟨[0x02, 0x80, 0x41, 0xC0, 0x42, 0x43, 0x00, 0x00, 0x00, 0x58], 10, 10, 6, 0⟩ []
    [0x02, 0x80, 0x41, 0xC0, 0x42, 0x43] [[0, 0, 0, 0]] ⟨0, 0⟩ 4 1 0 0
    [[0x41, 0x42, 0x43, 0x41]] ⟨1, 0⟩
    ⟨[0x02, 0x80, 0x41, 0xC0, 0x42, 0x43, 0x00, 0x00, 0x00, 0x58], 10, 10, 10, 4⟩ []
    rfl

end Tex3DS
